import Mathlib

/-!
Shallow embedding of the `rust-for-csharp-developers` demo programs
(demo1 … demo6): command-line argument resolution, file opening, line
reading, and per-line integer parsing, together with the error values
each demo produces.

A file on disk, as observed through `File::open` and `BufReader::lines()`,
is modelled as an `Option`al open failure plus the list of per-line read
results the iterator would yield.
-/

deriving instance DecidableEq for Except

namespace RustDemos

/-- An opaque, displayable operating-system error (`std::io::Error`). -/
structure IOError where
  msg : String
deriving DecidableEq, Repr

/-- The kinds of `std::num::ParseIntError` reachable from integer parsing. -/
inductive ParseIntErrorKind
  | Empty
  | InvalidDigit
  | PosOverflow
  | NegOverflow
deriving DecidableEq, Repr

/-- A file as seen through `File::open` plus `BufReader::lines()`:
either opening fails with an io error, or it succeeds and the line
iterator yields the given sequence of per-line results (each a decoded
line or an io error). -/
structure FileModel where
  openResult : Option IOError
  lines : List (Except IOError String)

/-- Value pushed by one step of Rust's `from_str_radix` digit loop:
`acc * 10 + digit`, accumulated left to right over a digit list. -/
def pushDigits (acc : Nat) (ds : List Char) : Nat :=
  ds.foldl (fun a c => a * 10 + (c.toNat - 48)) acc

/-- Numeric value of an ASCII digit string (most significant first). -/
def digitsToNat (ds : List Char) : Nat :=
  pushDigits 0 ds

/-- The digit loop of `u64::from_str` (`from_str_radix` with radix 10):
each byte must be an ASCII digit; the accumulator is multiplied by 10 and
the digit added, failing with `PosOverflow` as soon as the value leaves
the `u64` range. -/
def parseDigitsU64 : List Char → Nat → Except ParseIntErrorKind Nat
  | [], acc => Except.ok acc
  | c :: rest, acc =>
    if c.isDigit then
      if acc * 10 + (c.toNat - 48) < 2 ^ 64 then
        parseDigitsU64 rest (acc * 10 + (c.toNat - 48))
      else Except.error ParseIntErrorKind.PosOverflow
    else Except.error ParseIntErrorKind.InvalidDigit

/-- Rust's `str::parse::<u64>`: empty input is `Empty`; a lone `+` is
`InvalidDigit`; a leading `+` is skipped; everything else (including a
`-`, which is not a digit for an unsigned target) goes through the digit
loop. -/
def parseU64 (s : List Char) : Except ParseIntErrorKind Nat :=
  match s with
  | [] => Except.error ParseIntErrorKind.Empty
  | c :: rest =>
    if c = '+' then
      match rest with
      | [] => Except.error ParseIntErrorKind.InvalidDigit
      | _ :: _ => parseDigitsU64 rest 0
    else parseDigitsU64 (c :: rest) 0

/-- Rust's `char::is_whitespace`: the Unicode `White_Space` property. -/
def rustIsWhitespace (c : Char) : Bool :=
  c.toNat = 0x09 || c.toNat = 0x0A || c.toNat = 0x0B || c.toNat = 0x0C ||
  c.toNat = 0x0D || c.toNat = 0x20 || c.toNat = 0x85 || c.toNat = 0xA0 ||
  c.toNat = 0x1680 || (0x2000 ≤ c.toNat && c.toNat ≤ 0x200A) ||
  c.toNat = 0x2028 || c.toNat = 0x2029 || c.toNat = 0x202F ||
  c.toNat = 0x205F || c.toNat = 0x3000

/-- Rust's `str::trim`: remove leading and trailing whitespace. -/
def trimChars (s : List Char) : List Char :=
  ((s.dropWhile rustIsWhitespace).reverse.dropWhile rustIsWhitespace).reverse

/-- The digit loop of `i32::from_str`, working in unbounded `Int` with the
explicit `i32` range checks that `checked_mul`/`checked_add`/`checked_sub`
perform: on the positive path the accumulator grows as `acc * 10 + d` and
must stay at most `2147483647`; on the negative path it shrinks as
`acc * 10 - d` and must stay at least `-2147483648`. -/
def parseDigitsI32 : List Char → Bool → Int → Except ParseIntErrorKind Int
  | [], _, acc => Except.ok acc
  | c :: rest, isPos, acc =>
    if c.isDigit then
      if isPos then
        if acc * 10 + ((c.toNat - 48 : Nat) : Int) ≤ 2147483647 then
          parseDigitsI32 rest isPos (acc * 10 + ((c.toNat - 48 : Nat) : Int))
        else Except.error ParseIntErrorKind.PosOverflow
      else
        if -2147483648 ≤ acc * 10 - ((c.toNat - 48 : Nat) : Int) then
          parseDigitsI32 rest isPos (acc * 10 - ((c.toNat - 48 : Nat) : Int))
        else Except.error ParseIntErrorKind.NegOverflow
    else Except.error ParseIntErrorKind.InvalidDigit

/-- Value of the positive-path digit loop of `i32::from_str` as a fold
over `Int`. -/
def pushPosInt (acc : Int) (ds : List Char) : Int :=
  ds.foldl (fun a c => a * 10 + ((c.toNat - 48 : Nat) : Int)) acc

/-- Value of the negative-path digit loop of `i32::from_str` as a fold
over `Int`. -/
def pushNegInt (acc : Int) (ds : List Char) : Int :=
  ds.foldl (fun a c => a * 10 - ((c.toNat - 48 : Nat) : Int)) acc

/-- Rust's `str::parse::<i32>`: empty input is `Empty`; a lone sign is
`InvalidDigit`; a leading `+`/`-` selects the positive or negative digit
loop over the remaining bytes; otherwise the whole input is digits on the
positive path. -/
def parseI32 (s : List Char) : Except ParseIntErrorKind Int :=
  match s with
  | [] => Except.error ParseIntErrorKind.Empty
  | c :: rest =>
    if c = '+' then
      match rest with
      | [] => Except.error ParseIntErrorKind.InvalidDigit
      | _ :: _ => parseDigitsI32 rest true 0
    else if c = '-' then
      match rest with
      | [] => Except.error ParseIntErrorKind.InvalidDigit
      | _ :: _ => parseDigitsI32 rest false 0
    else parseDigitsI32 (c :: rest) true 0

/-- A nonempty run of decimal digits whose value fits in 64 bits, and
that value; `none` otherwise. Specification-side building block. -/
def u64DigitString (digits : List Char) : Option Nat :=
  if !digits.isEmpty && digits.all Char.isDigit &&
      decide (digitsToNat digits < 2 ^ 64) then
    some (digitsToNat digits)
  else none

/-- Specification-side characterization (§6 of the spec): a string is
"parseable as an unsigned 64-bit decimal integer" when, an optional
leading `+` removed, it is a nonempty run of decimal digits whose value
fits in 64 bits; the associated value is that digit string's value. -/
def specU64Decimal (t : List Char) : Option Nat :=
  u64DigitString (if t.head? = some '+' then t.drop 1 else t)

/-- A nonempty run of decimal digits read with the given sign, provided
the signed value lies in the 32-bit range; `none` otherwise.
Specification-side building block. -/
def i32DigitString (neg : Bool) (digits : List Char) : Option Int :=
  if !digits.isEmpty && digits.all Char.isDigit then
    if -2147483648 ≤ (if neg then -((digitsToNat digits : Nat) : Int)
                      else ((digitsToNat digits : Nat) : Int)) ∧
        (if neg then -((digitsToNat digits : Nat) : Int)
         else ((digitsToNat digits : Nat) : Int)) ≤ 2147483647 then
      some (if neg then -((digitsToNat digits : Nat) : Int)
            else ((digitsToNat digits : Nat) : Int))
    else none
  else none

/-- Specification-side characterization for demo1: the entire argument
string (an optional sign included, no surrounding whitespace allowed) is
a decimal integer literal whose value lies in the signed 32-bit range. -/
def specI32Decimal (t : List Char) : Option Int :=
  match t with
  | [] => none
  | c :: rest =>
    if c = '+' then i32DigitString false rest
    else if c = '-' then i32DigitString true rest
    else i32DigitString false (c :: rest)

/-- Rendering of `std::num::ParseIntError` through `Display`. -/
def parseErrorDisplay : ParseIntErrorKind → String
  | ParseIntErrorKind.Empty => "cannot parse integer from empty string"
  | ParseIntErrorKind.InvalidDigit => "invalid digit found in string"
  | ParseIntErrorKind.PosOverflow => "number too large to fit in target type"
  | ParseIntErrorKind.NegOverflow => "number too small to fit in target type"

end RustDemos

namespace RustDemos

/-! ### demo1: parse the first positional argument as an `i32` -/

/-- Observable outcome of `demo1::main`. -/
inductive Demo1Result
  | argMissing
  | parseFailed (k : ParseIntErrorKind)
  | printed (n : Int)
deriving DecidableEq, Repr

namespace demo1

/-- `demo1::main`: `argv.nth(1)` (the element after the program name) is
the argument; missing it prints "Not enough arguments" and exits; a parse
failure prints the error and exits; otherwise the parsed `i32` is
printed. -/
def main (argv : List String) : Demo1Result :=
  match argv.drop 1 with
  | [] => Demo1Result.argMissing
  | arg :: _ =>
    match parseI32 arg.data with
    | Except.ok n => Demo1Result.printed n
    | Except.error e => Demo1Result.parseFailed e

end demo1

/-! ### demo2: print every line of the file, unwrapping all errors -/

/-- Observable outcome of `demo2::main`: missing argument, a panic from
`unwrap`, or the printed lines. -/
inductive Demo2Result
  | argMissing
  | panicked
  | printed (lines : List String)
deriving DecidableEq, Repr

namespace demo2

/-- The line loop of `demo2::main`: each produced line is `unwrap`ped, so
the first read failure panics; otherwise every line is printed. -/
def readAll : List (Except IOError String) → Option (List String)
  | [] => some []
  | Except.error _ :: _ => none
  | Except.ok s :: rest => (readAll rest).map (fun ls => s :: ls)

/-- `demo2::main`, paired with the list of paths on which `File::open`
was attempted (the file-system side effects). -/
def run (argv : List String) (fs : String → FileModel) :
    List String × Demo2Result :=
  match argv.drop 1 with
  | [] => ([], Demo2Result.argMissing)
  | fileName :: _ =>
    match (fs fileName).openResult with
    | some _ => ([fileName], Demo2Result.panicked)
    | none =>
      match readAll (fs fileName).lines with
      | none => ([fileName], Demo2Result.panicked)
      | some ls => ([fileName], Demo2Result.printed ls)

end demo2

/-! ### demo3: collect lines, stringly-typed errors -/

namespace demo3

/-- The line loop of `demo3::read_file`: the first read failure returns
the fixed message, otherwise lines are accumulated in order. -/
def readLines : List (Except IOError String) → Except String (List String)
  | [] => Except.ok []
  | Except.error _ :: _ => Except.error "An error occured while reading a line"
  | Except.ok s :: rest => (readLines rest).map (fun ls => s :: ls)

/-- `demo3::read_file`: open the file (failing with "Could not open
file"), then run the line loop. -/
def read_file (f : FileModel) : Except String (List String) :=
  match f.openResult with
  | some _ => Except.error "Could not open file"
  | none => readLines f.lines

end demo3

/-! ### demo4: functional style with `filter_map(|line| line.ok())` -/

namespace demo4

/-- `demo4::read_file`: open the file (failing with "Could not open
file"), then collect the lines whose read succeeded, dropping every
failed read via `filter_map(|line| line.ok())`. -/
def read_file (f : FileModel) : Except String (List String) :=
  match f.openResult with
  | some _ => Except.error "Could not open file"
  | none => Except.ok (f.lines.filterMap Except.toOption)

end demo4

/-! ### demo5: `try!`-style propagation of `io::Error` -/

namespace demo5

/-- The line loop of `demo5::read_file`: `try!(line)` returns the first
io error unchanged, otherwise lines accumulate in order. -/
def readLines : List (Except IOError String) → Except IOError (List String)
  | [] => Except.ok []
  | Except.error e :: _ => Except.error e
  | Except.ok s :: rest => (readLines rest).map (fun ls => s :: ls)

/-- `demo5::read_file`: `try!(File::open(&path))` propagates the open
error, then the line loop runs. -/
def read_file (f : FileModel) : Except IOError (List String) :=
  match f.openResult with
  | some e => Except.error e
  | none => readLines f.lines

end demo5

/-! ### demo6: classified errors and per-line `u64` parsing -/

/-- `demo6::ReadError`: the tagged union of the possible errors, one
variant per underlying cause type (`io::Error`, `num::ParseIntError`). -/
inductive ReadError
  | Io (e : IOError)
  | Parse (e : ParseIntErrorKind)
deriving DecidableEq, Repr

namespace demo6

/-- The line loop of `demo6::read_file`: `try!(line)` converts an io
error via `From`, `try!(line.trim().parse())` converts a parse error via
`From`; parsed numbers accumulate in order. -/
def processLines : List (Except IOError String) → Except ReadError (List Nat)
  | [] => Except.ok []
  | Except.error e :: _ => Except.error (ReadError.Io e)
  | Except.ok s :: rest =>
    match parseU64 (trimChars s.data) with
    | Except.error e => Except.error (ReadError.Parse e)
    | Except.ok n => (processLines rest).map (fun ns => n :: ns)

/-- `demo6::read_file`: `try!(File::open(&path))` converts an open error
into `ReadError::Io`, then the line loop runs. -/
def read_file (f : FileModel) : Except ReadError (List Nat) :=
  match f.openResult with
  | some e => Except.error (ReadError.Io e)
  | none => processLines f.lines

/-- The error rendering in `demo6::main`: the exhaustive match over
`ReadError` printed on the failure path. -/
def report : ReadError → String
  | ReadError.Io e => "Error reading file: " ++ e.msg
  | ReadError.Parse e => "Error parsing file: " ++ parseErrorDisplay e

/-- The message demo6 (and demos 2-5) print when the positional argument
is absent. -/
def argMissingMsg : String := "Expected filename"

/-- Observable outcome of `demo6::main`. -/
inductive RunResult
  | argMissing
  | failed (diagnostic : String)
  | printed (numbers : List Nat)
deriving DecidableEq, Repr

/-- Process completion status: `exit(1)` on the two failure paths of
`demo6::main`, normal termination (0) on success. -/
def exitCode : RunResult → Nat
  | RunResult.argMissing => 1
  | RunResult.failed _ => 1
  | RunResult.printed _ => 0

/-- `demo6::main`, paired with the list of paths on which `File::open`
was attempted (the file-system side effects). -/
def run (argv : List String) (fs : String → FileModel) :
    List String × RunResult :=
  match argv.drop 1 with
  | [] => ([], RunResult.argMissing)
  | fileName :: _ =>
    match read_file (fs fileName) with
    | Except.error e => ([fileName], RunResult.failed (report e))
    | Except.ok ns => ([fileName], RunResult.printed ns)

/-- Two consecutive invocations of `demo6::read_file` on the same
unmodified file. -/
def runTwice (f : FileModel) :
    Except ReadError (List Nat) × Except ReadError (List Nat) :=
  (read_file f, read_file f)

/-- 1-indexed position of the first line demo6's loop cannot get past: a
failed read, or a line whose trimmed content does not parse as `u64`.
`k` is the index of the list's first element. -/
def firstBadLine (k : Nat) : List (Except IOError String) → Option Nat
  | [] => none
  | Except.error _ :: _ => some k
  | Except.ok s :: rest =>
    match parseU64 (trimChars s.data) with
    | Except.error _ => some k
    | Except.ok _ => firstBadLine (k + 1) rest

end demo6

/-! ### Characterization of the digit loops -/

theorem pushDigits_cons (acc : Nat) (c : Char) (ds : List Char) :
    pushDigits acc (c :: ds) = pushDigits (acc * 10 + (c.toNat - 48)) ds := rfl

theorem le_pushDigits (ds : List Char) : ∀ acc : Nat, acc ≤ pushDigits acc ds := by
  induction ds with
  | nil => intro acc; exact Nat.le_refl _
  | cons c rest ih =>
    intro acc
    rw [pushDigits_cons]
    exact Nat.le_trans (by omega) (ih (acc * 10 + (c.toNat - 48)))

theorem parseDigitsU64_cons (c : Char) (rest : List Char) (acc : Nat) :
    parseDigitsU64 (c :: rest) acc =
      if c.isDigit then
        if acc * 10 + (c.toNat - 48) < 2 ^ 64 then
          parseDigitsU64 rest (acc * 10 + (c.toNat - 48))
        else Except.error ParseIntErrorKind.PosOverflow
      else Except.error ParseIntErrorKind.InvalidDigit := rfl

theorem parseDigitsU64_ok_iff (ds : List Char) :
    ∀ acc n : Nat, acc < 2 ^ 64 →
      (parseDigitsU64 ds acc = Except.ok n ↔
        ds.all Char.isDigit = true ∧ pushDigits acc ds < 2 ^ 64 ∧
          n = pushDigits acc ds) := by
  induction ds with
  | nil =>
    intro acc n hacc
    simp only [parseDigitsU64, Except.ok.injEq, List.all_nil, true_and]
    constructor
    · intro h; exact ⟨hacc, h.symm⟩
    · intro h; exact h.2.symm
  | cons c rest ih =>
    intro acc n hacc
    rw [pushDigits_cons, parseDigitsU64_cons]
    by_cases hc : c.isDigit
    · rw [if_pos hc]
      by_cases h2 : acc * 10 + (c.toNat - 48) < 2 ^ 64
      · rw [if_pos h2, ih (acc * 10 + (c.toNat - 48)) n h2]
        simp [hc]
      · rw [if_neg h2]
        have hmono := le_pushDigits rest (acc * 10 + (c.toNat - 48))
        constructor
        · intro h; exact absurd h (by simp)
        · rintro ⟨-, hlt, -⟩; omega
    · rw [if_neg hc]
      constructor
      · intro h; exact absurd h (by simp)
      · rintro ⟨hall, -, -⟩
        rw [List.all_cons, Bool.and_eq_true] at hall
        exact absurd hall.1 hc

theorem u64DigitString_cons (d : Char) (ds : List Char) (n : Nat) :
    u64DigitString (d :: ds) = some n ↔
      (d :: ds).all Char.isDigit = true ∧ digitsToNat (d :: ds) < 2 ^ 64 ∧
        n = digitsToNat (d :: ds) := by
  simp only [u64DigitString, List.isEmpty_cons, Bool.not_false, Bool.true_and]
  by_cases hall : (d :: ds).all Char.isDigit
  · by_cases hlt : digitsToNat (d :: ds) < 2 ^ 64 <;> simp [hall, hlt, eq_comm]
  · simp [hall]

theorem parseU64_cons (c : Char) (rest : List Char) :
    parseU64 (c :: rest) =
      if c = '+' then
        match rest with
        | [] => Except.error ParseIntErrorKind.InvalidDigit
        | _ :: _ => parseDigitsU64 rest 0
      else parseDigitsU64 (c :: rest) 0 := rfl

theorem parseU64_ok_iff_spec (t : List Char) (n : Nat) :
    parseU64 t = Except.ok n ↔ specU64Decimal t = some n := by
  match t with
  | [] => simp [parseU64, specU64Decimal, u64DigitString]
  | c :: rest =>
    by_cases hplus : c = '+'
    · subst hplus
      match rest with
      | [] =>
        rw [parseU64_cons, if_pos rfl]
        simp [specU64Decimal, u64DigitString]
      | d :: rest2 =>
        rw [parseU64_cons, if_pos rfl]
        rw [parseDigitsU64_ok_iff (d :: rest2) 0 n (by norm_num)]
        rw [show specU64Decimal ('+' :: d :: rest2) = u64DigitString (d :: rest2) by
              simp [specU64Decimal]]
        rw [u64DigitString_cons]
        rw [show digitsToNat (d :: rest2) = pushDigits 0 (d :: rest2) from rfl]
    · rw [parseU64_cons, if_neg hplus]
      rw [parseDigitsU64_ok_iff (c :: rest) 0 n (by norm_num)]
      rw [show specU64Decimal (c :: rest) = u64DigitString (c :: rest) by
            simp [specU64Decimal, hplus]]
      rw [u64DigitString_cons]
      rw [show digitsToNat (c :: rest) = pushDigits 0 (c :: rest) from rfl]

theorem pushPosInt_cons (acc : Int) (c : Char) (ds : List Char) :
    pushPosInt acc (c :: ds) =
      pushPosInt (acc * 10 + ((c.toNat - 48 : Nat) : Int)) ds := rfl

theorem pushNegInt_cons (acc : Int) (c : Char) (ds : List Char) :
    pushNegInt acc (c :: ds) =
      pushNegInt (acc * 10 - ((c.toNat - 48 : Nat) : Int)) ds := rfl

theorem le_pushPosInt (ds : List Char) :
    ∀ acc : Int, 0 ≤ acc → acc ≤ pushPosInt acc ds := by
  induction ds with
  | nil => intro acc _; exact le_refl acc
  | cons c rest ih =>
    intro acc hacc
    rw [pushPosInt_cons]
    have hd : (0 : Int) ≤ ((c.toNat - 48 : Nat) : Int) := Int.ofNat_nonneg _
    have step : acc ≤ acc * 10 + ((c.toNat - 48 : Nat) : Int) := by linarith
    exact le_trans step (ih _ (by linarith))

theorem pushNegInt_le (ds : List Char) :
    ∀ acc : Int, acc ≤ 0 → pushNegInt acc ds ≤ acc := by
  induction ds with
  | nil => intro acc _; exact le_refl acc
  | cons c rest ih =>
    intro acc hacc
    rw [pushNegInt_cons]
    have hd : (0 : Int) ≤ ((c.toNat - 48 : Nat) : Int) := Int.ofNat_nonneg _
    have step : acc * 10 - ((c.toNat - 48 : Nat) : Int) ≤ acc := by linarith
    exact le_trans (ih _ (by linarith)) step

theorem parseDigitsI32_cons (c : Char) (rest : List Char) (isPos : Bool) (acc : Int) :
    parseDigitsI32 (c :: rest) isPos acc =
      if c.isDigit then
        if isPos then
          if acc * 10 + ((c.toNat - 48 : Nat) : Int) ≤ 2147483647 then
            parseDigitsI32 rest isPos (acc * 10 + ((c.toNat - 48 : Nat) : Int))
          else Except.error ParseIntErrorKind.PosOverflow
        else
          if -2147483648 ≤ acc * 10 - ((c.toNat - 48 : Nat) : Int) then
            parseDigitsI32 rest isPos (acc * 10 - ((c.toNat - 48 : Nat) : Int))
          else Except.error ParseIntErrorKind.NegOverflow
      else Except.error ParseIntErrorKind.InvalidDigit := rfl

theorem parseDigitsI32_pos_ok_iff (ds : List Char) :
    ∀ acc n : Int, 0 ≤ acc → acc ≤ 2147483647 →
      (parseDigitsI32 ds true acc = Except.ok n ↔
        ds.all Char.isDigit = true ∧ pushPosInt acc ds ≤ 2147483647 ∧
          n = pushPosInt acc ds) := by
  induction ds with
  | nil =>
    intro acc n h0 hacc
    simp only [parseDigitsI32, Except.ok.injEq, List.all_nil, true_and]
    constructor
    · intro h; exact ⟨hacc, h.symm⟩
    · intro h; exact h.2.symm
  | cons c rest ih =>
    intro acc n h0 hacc
    rw [pushPosInt_cons, parseDigitsI32_cons]
    by_cases hc : c.isDigit
    · rw [if_pos hc, if_pos rfl]
      have hd : (0 : Int) ≤ ((c.toNat - 48 : Nat) : Int) := Int.ofNat_nonneg _
      by_cases h2 : acc * 10 + ((c.toNat - 48 : Nat) : Int) ≤ 2147483647
      · rw [if_pos h2, ih _ n (by linarith) h2]
        simp [hc]
      · rw [if_neg h2]
        have hmono := le_pushPosInt rest (acc * 10 + ((c.toNat - 48 : Nat) : Int))
          (by linarith)
        constructor
        · intro h; exact absurd h (by simp)
        · rintro ⟨-, hle, -⟩; omega
    · rw [if_neg hc]
      constructor
      · intro h; exact absurd h (by simp)
      · rintro ⟨hall, -, -⟩
        rw [List.all_cons, Bool.and_eq_true] at hall
        exact absurd hall.1 hc

theorem parseDigitsI32_neg_ok_iff (ds : List Char) :
    ∀ acc n : Int, acc ≤ 0 → -2147483648 ≤ acc →
      (parseDigitsI32 ds false acc = Except.ok n ↔
        ds.all Char.isDigit = true ∧ -2147483648 ≤ pushNegInt acc ds ∧
          n = pushNegInt acc ds) := by
  induction ds with
  | nil =>
    intro acc n h0 hacc
    simp only [parseDigitsI32, Except.ok.injEq, List.all_nil, true_and]
    constructor
    · intro h; exact ⟨hacc, h.symm⟩
    · intro h; exact h.2.symm
  | cons c rest ih =>
    intro acc n h0 hacc
    rw [pushNegInt_cons, parseDigitsI32_cons]
    by_cases hc : c.isDigit
    · rw [if_pos hc, if_neg (by simp)]
      have hd : (0 : Int) ≤ ((c.toNat - 48 : Nat) : Int) := Int.ofNat_nonneg _
      by_cases h2 : -2147483648 ≤ acc * 10 - ((c.toNat - 48 : Nat) : Int)
      · rw [if_pos h2, ih _ n (by linarith) h2]
        simp [hc]
      · rw [if_neg h2]
        have hmono := pushNegInt_le rest (acc * 10 - ((c.toNat - 48 : Nat) : Int))
          (by linarith)
        constructor
        · intro h; exact absurd h (by simp)
        · rintro ⟨-, hle, -⟩; omega
    · rw [if_neg hc]
      constructor
      · intro h; exact absurd h (by simp)
      · rintro ⟨hall, -, -⟩
        rw [List.all_cons, Bool.and_eq_true] at hall
        exact absurd hall.1 hc

theorem pushPosInt_natCast (ds : List Char) :
    ∀ a : Nat, pushPosInt (a : Int) ds = ((pushDigits a ds : Nat) : Int) := by
  induction ds with
  | nil => intro a; rfl
  | cons c rest ih =>
    intro a
    rw [pushPosInt_cons, pushDigits_cons]
    rw [show ((a : Int) * 10 + ((c.toNat - 48 : Nat) : Int))
          = ((a * 10 + (c.toNat - 48) : Nat) : Int) by push_cast; ring]
    exact ih (a * 10 + (c.toNat - 48))

theorem pushNegInt_natCast (ds : List Char) :
    ∀ a : Nat, pushNegInt (-(a : Int)) ds = -((pushDigits a ds : Nat) : Int) := by
  induction ds with
  | nil => intro a; rfl
  | cons c rest ih =>
    intro a
    rw [pushNegInt_cons, pushDigits_cons]
    rw [show (-(a : Int) * 10 - ((c.toNat - 48 : Nat) : Int))
          = -((a * 10 + (c.toNat - 48) : Nat) : Int) by push_cast; ring]
    exact ih (a * 10 + (c.toNat - 48))

theorem i32DigitString_pos_cons (d : Char) (ds : List Char) (n : Int) :
    i32DigitString false (d :: ds) = some n ↔
      (d :: ds).all Char.isDigit = true ∧
        ((digitsToNat (d :: ds) : Nat) : Int) ≤ 2147483647 ∧
        n = ((digitsToNat (d :: ds) : Nat) : Int) := by
  simp only [i32DigitString, List.isEmpty_cons, Bool.not_false, Bool.true_and,
    if_neg (Bool.false_ne_true), Bool.false_eq_true, if_false]
  have hlow : (-2147483648 : Int) ≤ ((digitsToNat (d :: ds) : Nat) : Int) := by
    have := Int.ofNat_nonneg (digitsToNat (d :: ds))
    linarith
  by_cases hall : (d :: ds).all Char.isDigit
  · by_cases hle : ((digitsToNat (d :: ds) : Nat) : Int) ≤ 2147483647 <;>
      simp [hall, hle, hlow, eq_comm]
  · simp [hall]

theorem i32DigitString_neg_cons (d : Char) (ds : List Char) (n : Int) :
    i32DigitString true (d :: ds) = some n ↔
      (d :: ds).all Char.isDigit = true ∧
        -2147483648 ≤ -((digitsToNat (d :: ds) : Nat) : Int) ∧
        n = -((digitsToNat (d :: ds) : Nat) : Int) := by
  simp only [i32DigitString, List.isEmpty_cons, Bool.not_false, Bool.true_and,
    if_pos rfl]
  have hhigh : -((digitsToNat (d :: ds) : Nat) : Int) ≤ 2147483647 := by
    have := Int.ofNat_nonneg (digitsToNat (d :: ds))
    linarith
  by_cases hall : (d :: ds).all Char.isDigit
  · by_cases hle : (-2147483648 : Int) ≤ -((digitsToNat (d :: ds) : Nat) : Int) <;>
      simp [hall, hle, hhigh, eq_comm]
  · simp [hall]

theorem parseI32_cons (c : Char) (rest : List Char) :
    parseI32 (c :: rest) =
      if c = '+' then
        match rest with
        | [] => Except.error ParseIntErrorKind.InvalidDigit
        | _ :: _ => parseDigitsI32 rest true 0
      else if c = '-' then
        match rest with
        | [] => Except.error ParseIntErrorKind.InvalidDigit
        | _ :: _ => parseDigitsI32 rest false 0
      else parseDigitsI32 (c :: rest) true 0 := rfl

theorem parseI32_ok_iff_spec (t : List Char) (n : Int) :
    parseI32 t = Except.ok n ↔ specI32Decimal t = some n := by
  match t with
  | [] => simp [parseI32, specI32Decimal]
  | c :: rest =>
    by_cases hplus : c = '+'
    · subst hplus
      rw [parseI32_cons, if_pos rfl]
      rw [show specI32Decimal ('+' :: rest) = i32DigitString false rest by
            simp [specI32Decimal]]
      match rest with
      | [] => simp [i32DigitString]
      | d :: rest2 =>
        rw [parseDigitsI32_pos_ok_iff (d :: rest2) 0 n (le_refl 0) (by norm_num)]
        rw [i32DigitString_pos_cons]
        have hcast := pushPosInt_natCast (d :: rest2) 0
        simp only [Nat.cast_zero] at hcast
        rw [hcast]
        rw [show digitsToNat (d :: rest2) = pushDigits 0 (d :: rest2) from rfl]
    · by_cases hminus : c = '-'
      · subst hminus
        rw [parseI32_cons, if_neg (by decide), if_pos rfl]
        rw [show specI32Decimal ('-' :: rest)
              = i32DigitString true rest by simp [specI32Decimal]]
        match rest with
        | [] => simp [i32DigitString]
        | d :: rest2 =>
          rw [parseDigitsI32_neg_ok_iff (d :: rest2) 0 n (le_refl 0) (by norm_num)]
          rw [i32DigitString_neg_cons]
          have hcast := pushNegInt_natCast (d :: rest2) 0
          simp only [Nat.cast_zero, neg_zero] at hcast
          rw [hcast]
          rw [show digitsToNat (d :: rest2) = pushDigits 0 (d :: rest2) from rfl]
      · rw [parseI32_cons, if_neg hplus, if_neg hminus]
        rw [parseDigitsI32_pos_ok_iff (c :: rest) 0 n (le_refl 0) (by norm_num)]
        rw [show specI32Decimal (c :: rest) = i32DigitString false (c :: rest) by
              simp [specI32Decimal, hplus, hminus]]
        rw [i32DigitString_pos_cons]
        have hcast := pushPosInt_natCast (c :: rest) 0
        simp only [Nat.cast_zero] at hcast
        rw [hcast]
        rw [show digitsToNat (c :: rest) = pushDigits 0 (c :: rest) from rfl]

/-! ### Behaviour of the line loops -/

theorem demo3_readLines_all_ok (ss : List String) :
    demo3.readLines (ss.map Except.ok) = Except.ok ss := by
  induction ss with
  | nil => rfl
  | cons s rest ih => simp [demo3.readLines, ih, Except.map]

theorem demo5_readLines_all_ok (ss : List String) :
    demo5.readLines (ss.map Except.ok) = Except.ok ss := by
  induction ss with
  | nil => rfl
  | cons s rest ih => simp [demo5.readLines, ih, Except.map]

theorem demo3_readLines_first_error (pre : List String) (e : IOError)
    (rest : List (Except IOError String)) :
    demo3.readLines (pre.map Except.ok ++ Except.error e :: rest) =
      Except.error "An error occured while reading a line" := by
  induction pre with
  | nil => rfl
  | cons s pre ih => simp [demo3.readLines, ih, Except.map]

theorem demo5_readLines_first_error (pre : List String) (e : IOError)
    (rest : List (Except IOError String)) :
    demo5.readLines (pre.map Except.ok ++ Except.error e :: rest) =
      Except.error e := by
  induction pre with
  | nil => rfl
  | cons s pre ih => simp [demo5.readLines, ih, Except.map]

theorem demo6_processLines_read_error (pre : List String) (e : IOError)
    (rest : List (Except IOError String))
    (hpre : ∀ s ∈ pre, ∃ n, parseU64 (trimChars s.data) = Except.ok n) :
    demo6.processLines (pre.map Except.ok ++ Except.error e :: rest) =
      Except.error (ReadError.Io e) := by
  induction pre with
  | nil => rfl
  | cons s pre ih =>
    obtain ⟨n, hn⟩ := hpre s (List.mem_cons_self s pre)
    have ih2 := ih (fun x hx => hpre x (List.mem_cons_of_mem s hx))
    simp [demo6.processLines, hn, ih2, Except.map]

theorem demo6_processLines_parse_error (pre : List String) (bad : String)
    (rest : List (Except IOError String)) (k : ParseIntErrorKind)
    (hpre : ∀ s ∈ pre, ∃ n, parseU64 (trimChars s.data) = Except.ok n)
    (hbad : parseU64 (trimChars bad.data) = Except.error k) :
    demo6.processLines (pre.map Except.ok ++ Except.ok bad :: rest) =
      Except.error (ReadError.Parse k) := by
  induction pre with
  | nil => simp [demo6.processLines, hbad]
  | cons s pre ih =>
    obtain ⟨n, hn⟩ := hpre s (List.mem_cons_self s pre)
    have ih2 := ih (fun x hx => hpre x (List.mem_cons_of_mem s hx))
    simp [demo6.processLines, hn, ih2, Except.map]

theorem firstBadLine_shift (pre : List String)
    (tail : List (Except IOError String))
    (hpre : ∀ s ∈ pre, ∃ n, parseU64 (trimChars s.data) = Except.ok n) :
    ∀ k : Nat, demo6.firstBadLine k (pre.map Except.ok ++ tail) =
      demo6.firstBadLine (k + pre.length) tail := by
  induction pre with
  | nil => intro k; rfl
  | cons s pre ih =>
    intro k
    obtain ⟨n, hn⟩ := hpre s (List.mem_cons_self s pre)
    have ih2 := ih (fun x hx => hpre x (List.mem_cons_of_mem s hx)) (k + 1)
    simp only [List.map_cons, List.cons_append, demo6.firstBadLine, hn,
      List.append_eq]
    rw [ih2]
    congr 1
    simp only [List.length_cons]
    omega

theorem filterMap_toOption_map_ok (ss : List String) :
    List.filterMap Except.toOption
        (ss.map (Except.ok : String → Except IOError String)) = ss := by
  induction ss with
  | nil => rfl
  | cons s rest ih => simp [List.filterMap_cons, Except.toOption, ih]

theorem append_ne_of_take7 (p q a b : String)
    (hp : 7 ≤ p.data.length) (hq : 7 ≤ q.data.length)
    (h : p.data.take 7 ≠ q.data.take 7) : p ++ a ≠ q ++ b := by
  intro heq
  have hd := congrArg String.data heq
  rw [String.data_append, String.data_append] at hd
  have ht := congrArg (List.take 7) hd
  rw [List.take_append_of_le_length hp, List.take_append_of_le_length hq] at ht
  exact h ht

/-! ### The claims -/

/-- Claim C1 counterexample: the claim says every per-line read failure is
propagated immediately in all demo variants, but `demo4::read_file` uses
`filter_map(|line| line.ok())`: on a file whose second line fails to read,
it silently drops that line and returns the remaining lines as a success
instead of any error. -/
theorem C1_counterexample :
    demo4.read_file
        ⟨none, [Except.ok "alpha", Except.error ⟨"bad utf8"⟩, Except.ok "beta"]⟩
      = Except.ok ["alpha", "beta"] := by decide

/-- Claim C1 (amended): demos 3, 5 and 6 do propagate the first
line-read failure immediately, returning only the classified error and no
accumulated values (for demo6 the preceding lines must parse, or the
parse error fires first); demo4, however, silently skips every failed
line read and returns the remaining lines as a success, so the
strict/abort policy is not uniform across the demo variants. -/
theorem C1_strict_abort_except_demo4 (pre : List String) (e : IOError)
    (rest : List (Except IOError String))
    (hpre : ∀ s ∈ pre, ∃ n, parseU64 (trimChars s.data) = Except.ok n) :
    demo3.read_file ⟨none, pre.map Except.ok ++ Except.error e :: rest⟩
        = Except.error "An error occured while reading a line" ∧
    demo5.read_file ⟨none, pre.map Except.ok ++ Except.error e :: rest⟩
        = Except.error e ∧
    demo6.read_file ⟨none, pre.map Except.ok ++ Except.error e :: rest⟩
        = Except.error (ReadError.Io e) ∧
    demo4.read_file ⟨none, pre.map Except.ok ++ Except.error e :: rest⟩
        = Except.ok (pre ++ rest.filterMap Except.toOption) := by
  refine ⟨demo3_readLines_first_error pre e rest,
    demo5_readLines_first_error pre e rest,
    demo6_processLines_read_error pre e rest hpre, ?_⟩
  have h4 : demo4.read_file ⟨none, pre.map Except.ok ++ Except.error e :: rest⟩
      = Except.ok ((pre.map Except.ok ++ Except.error e :: rest).filterMap
          Except.toOption) := rfl
  rw [h4, List.filterMap_append]
  rw [show List.filterMap Except.toOption
        ((Except.error e : Except IOError String) :: rest)
        = List.filterMap Except.toOption rest from rfl]
  rw [filterMap_toOption_map_ok]

/-- Witness for C1 (amended) on the file whose reads yield "1", a read
failure, then "2". -/
theorem C1_strict_abort_except_demo4_witness :
    demo3.read_file
        ⟨none, [Except.ok "1", Except.error ⟨"boom"⟩, Except.ok "2"]⟩
        = Except.error "An error occured while reading a line" ∧
    demo5.read_file
        ⟨none, [Except.ok "1", Except.error ⟨"boom"⟩, Except.ok "2"]⟩
        = Except.error ⟨"boom"⟩ ∧
    demo6.read_file
        ⟨none, [Except.ok "1", Except.error ⟨"boom"⟩, Except.ok "2"]⟩
        = Except.error (ReadError.Io ⟨"boom"⟩) ∧
    demo4.read_file
        ⟨none, [Except.ok "1", Except.error ⟨"boom"⟩, Except.ok "2"]⟩
        = Except.ok ["1", "2"] :=
  C1_strict_abort_except_demo4 ["1"] ⟨"boom"⟩ [Except.ok "2"] (by
    intro s hs
    rw [List.mem_singleton] at hs
    subst hs
    exact ⟨1, by decide⟩)

/-- Claim C2: on the file "3\n4\nx\n5" with the integer transform, demo6
fails with the parse error of line 3 ("x"), prints no values, and exits
nonzero; on "3\n4\n5" it succeeds printing 3, 4, 5 in order and exits
zero. -/
theorem C2_concrete_scenarios :
    demo6.run ["demo6", "data.txt"]
        (fun _ => ⟨none, [Except.ok "3", Except.ok "4", Except.ok "x",
          Except.ok "5"]⟩)
      = (["data.txt"], demo6.RunResult.failed
          "Error parsing file: invalid digit found in string") ∧
    demo6.firstBadLine 1
        [Except.ok "3", Except.ok "4", Except.ok "x", Except.ok "5"]
      = some 3 ∧
    parseU64 (trimChars "x".data)
      = Except.error ParseIntErrorKind.InvalidDigit ∧
    demo6.exitCode (demo6.RunResult.failed
        "Error parsing file: invalid digit found in string") = 1 ∧
    demo6.run ["demo6", "data.txt"]
        (fun _ => ⟨none, [Except.ok "3", Except.ok "4", Except.ok "5"]⟩)
      = (["data.txt"], demo6.RunResult.printed [3, 4, 5]) ∧
    demo6.exitCode (demo6.RunResult.printed [3, 4, 5]) = 0 :=
  ⟨by decide, by decide, by decide, rfl, by decide, rfl⟩

/-- Claim C3: with no transform configured (demo3 and demo5), a file of N
well-formed lines yields exactly those N lines, unchanged and in file
order. -/
theorem C3_no_transform_identity (ss : List String) :
    demo3.read_file ⟨none, ss.map Except.ok⟩ = Except.ok ss ∧
    demo5.read_file ⟨none, ss.map Except.ok⟩ = Except.ok ss :=
  ⟨demo3_readLines_all_ok ss, demo5_readLines_all_ok ss⟩

/-- Claim C4 counterexample: the claim says the returned error carries
the index/content of the triggering line, but two demo6 runs whose first
failing lines differ in both index (1 versus 2) and content ("x" versus
"y") return the identical error value `Parse(InvalidDigit)`, so the error
carries neither. -/
theorem C4_counterexample :
    demo6.read_file ⟨none, [Except.ok "x"]⟩
        = demo6.read_file ⟨none, [Except.ok "3", Except.ok "y"]⟩ ∧
    demo6.read_file ⟨none, [Except.ok "x"]⟩
        = Except.error (ReadError.Parse ParseIntErrorKind.InvalidDigit) ∧
    demo6.firstBadLine 1 [Except.ok "x"] = some 1 ∧
    demo6.firstBadLine 1 [Except.ok "3", Except.ok "y"] = some 2 :=
  ⟨by decide, by decide, by decide, by decide⟩

/-- Claim C4 (amended): when a run fails it returns a single classified
error wrapping only the underlying cause (not the line index/content);
when line k (1-indexed) is the first line failing the transform, the run
fails with the `Parse` error produced by that line — the failure is
attributable to line k in the sense that k is the first bad line and the
error is line k's own parse error — and no values are returned. -/
theorem C4_first_parse_failure (pre : List String) (bad : String)
    (rest : List (Except IOError String)) (k : ParseIntErrorKind)
    (hpre : ∀ s ∈ pre, ∃ n, parseU64 (trimChars s.data) = Except.ok n)
    (hbad : parseU64 (trimChars bad.data) = Except.error k) :
    demo6.read_file ⟨none, pre.map Except.ok ++ Except.ok bad :: rest⟩
        = Except.error (ReadError.Parse k) ∧
    demo6.firstBadLine 1 (pre.map Except.ok ++ Except.ok bad :: rest)
        = some (pre.length + 1) := by
  refine ⟨demo6_processLines_parse_error pre bad rest k hpre hbad, ?_⟩
  rw [firstBadLine_shift pre _ hpre 1]
  simp only [demo6.firstBadLine, hbad]
  rw [Nat.add_comm]

/-- Witness for C4 (amended): in the file "3", "4", "x", "5" the first
transform failure is at line 3 and the run fails with its parse error. -/
theorem C4_first_parse_failure_witness :
    demo6.read_file ⟨none, [Except.ok "3", Except.ok "4", Except.ok "x",
        Except.ok "5"]⟩
        = Except.error (ReadError.Parse ParseIntErrorKind.InvalidDigit) ∧
    demo6.firstBadLine 1 [Except.ok "3", Except.ok "4", Except.ok "x",
        Except.ok "5"]
        = some (["3", "4"].length + 1) :=
  C4_first_parse_failure ["3", "4"] "x" [Except.ok "5"]
    ParseIntErrorKind.InvalidDigit
    (by
      intro s hs
      rw [List.mem_cons, List.mem_singleton] at hs
      rcases hs with h3 | h4
      · subst h3; exact ⟨3, by decide⟩
      · subst h4; exact ⟨4, by decide⟩)
    (by decide)

/-- Claim C5: when the file cannot be opened, demo3, demo5 and demo6 all
fail with the open-failure error, and the result does not depend on the
line sequence at all — the line-production loop is never entered. -/
theorem C5_open_failure (e : IOError) (ls ls2 : List (Except IOError String)) :
    demo3.read_file ⟨some e, ls⟩ = Except.error "Could not open file" ∧
    demo5.read_file ⟨some e, ls⟩ = Except.error e ∧
    demo6.read_file ⟨some e, ls⟩ = Except.error (ReadError.Io e) ∧
    demo6.read_file ⟨some e, ls⟩ = demo6.read_file ⟨some e, ls2⟩ :=
  ⟨rfl, rfl, rfl, rfl⟩

/-- Claim C6: when the external argument list has no positional argument
(nothing after the program name), demo2 and demo6 fail with the
missing-argument outcome and the list of attempted file opens is empty —
no file-system access happens. -/
theorem C6_arg_missing_no_fs_access (argv : List String)
    (fs : String → FileModel) (h : argv.drop 1 = []) :
    demo2.run argv fs = ([], Demo2Result.argMissing) ∧
    demo6.run argv fs = ([], demo6.RunResult.argMissing) := by
  constructor
  · rw [show demo2.run argv fs
        = (match argv.drop 1 with
           | [] => ([], Demo2Result.argMissing)
           | fileName :: _ =>
             match (fs fileName).openResult with
             | some _ => ([fileName], Demo2Result.panicked)
             | none =>
               match demo2.readAll (fs fileName).lines with
               | none => ([fileName], Demo2Result.panicked)
               | some ls => ([fileName], Demo2Result.printed ls)) from rfl]
    rw [h]
  · rw [show demo6.run argv fs
        = (match argv.drop 1 with
           | [] => ([], demo6.RunResult.argMissing)
           | fileName :: _ =>
             match demo6.read_file (fs fileName) with
             | Except.error e =>
               ([fileName], demo6.RunResult.failed (demo6.report e))
             | Except.ok ns => ([fileName], demo6.RunResult.printed ns))
        from rfl]
    rw [h]

/-- Witness for C6 on the argument list holding only the program name. -/
theorem C6_arg_missing_no_fs_access_witness :
    demo2.run ["demo"] (fun _ => ⟨none, []⟩)
        = ([], Demo2Result.argMissing) ∧
    demo6.run ["demo"] (fun _ => ⟨none, []⟩)
        = ([], demo6.RunResult.argMissing) :=
  C6_arg_missing_no_fs_access ["demo"] (fun _ => ⟨none, []⟩) rfl

/-- Claim C7: demo6 accepts a line exactly when its content, after
trimming leading and trailing whitespace, is parseable as an unsigned
64-bit decimal integer (an optional leading `+`, digits, value below
2^64), and the value it appends to the output sequence is exactly that
parsed value; a line whose trimmed content is not such an integer makes
the loop fail with a `Parse` error. -/
theorem C7_line_acceptance (s : String) (rest : List (Except IOError String)) :
    (∀ (n : Nat) (tl : List Nat),
        demo6.processLines (Except.ok s :: rest) = Except.ok (n :: tl) ↔
          (specU64Decimal (trimChars s.data) = some n ∧
            demo6.processLines rest = Except.ok tl)) ∧
    ((∃ m, parseU64 (trimChars s.data) = Except.ok m ∧
        specU64Decimal (trimChars s.data) = some m) ∨
      (∃ e, demo6.processLines (Except.ok s :: rest)
            = Except.error (ReadError.Parse e) ∧
        specU64Decimal (trimChars s.data) = none)) := by
  have hstep : demo6.processLines (Except.ok s :: rest)
      = (match parseU64 (trimChars s.data) with
         | Except.error e => Except.error (ReadError.Parse e)
         | Except.ok n => (demo6.processLines rest).map (fun ns => n :: ns)) :=
    rfl
  rcases h : parseU64 (trimChars s.data) with e | m
  · constructor
    · intro n tl
      constructor
      · intro habs
        rw [hstep, h] at habs
        cases habs
      · rintro ⟨hspec, -⟩
        have := (parseU64_ok_iff_spec (trimChars s.data) n).mpr hspec
        rw [h] at this
        cases this
    · refine Or.inr ⟨e, by rw [hstep, h], ?_⟩
      cases hs : specU64Decimal (trimChars s.data) with
      | none => rfl
      | some m2 =>
        have := (parseU64_ok_iff_spec (trimChars s.data) m2).mpr hs
        rw [h] at this
        cases this
  · have hspec : specU64Decimal (trimChars s.data) = some m :=
      (parseU64_ok_iff_spec (trimChars s.data) m).mp h
    constructor
    · intro n tl
      rw [hstep, h, hspec]
      cases hr : demo6.processLines rest with
      | error e2 => simp [Except.map]
      | ok ls => simp [Except.map, and_comm]
    · exact Or.inl ⟨m, rfl, hspec⟩

/-- Claim C8 counterexample: the claim says the four spec-taxonomy cases
each have their own distinct rendering, but in demo6 a file-open failure
and a line-read failure with the same underlying cause produce the
identical error value `Io`, hence the identical diagnostic — the code's
boundary taxonomy has two variants, not four. -/
theorem C8_counterexample :
    demo6.read_file ⟨some ⟨"cause"⟩, []⟩
        = Except.error (ReadError.Io ⟨"cause"⟩) ∧
    demo6.read_file ⟨none, [Except.error ⟨"cause"⟩]⟩
        = Except.error (ReadError.Io ⟨"cause"⟩) ∧
    demo6.report (ReadError.Io ⟨"cause"⟩) = "Error reading file: cause" :=
  ⟨rfl, rfl, by decide⟩

/-- Claim C8 (amended): the boundary match of demo6 is exhaustive over
the code's two-variant `ReadError` taxonomy, each variant having exactly
one rendering rule, and the three reporting paths (missing argument, io
error, parse error) produce pairwise distinct messages; file-open and
line-read failures share the `Io` variant and hence one rendering rule. -/
theorem C8_two_variant_reporting (c : IOError) (k : ParseIntErrorKind) :
    demo6.report (ReadError.Io c) = "Error reading file: " ++ c.msg ∧
    demo6.report (ReadError.Parse k)
        = "Error parsing file: " ++ parseErrorDisplay k ∧
    demo6.report (ReadError.Io c) ≠ demo6.report (ReadError.Parse k) ∧
    demo6.argMissingMsg ≠ demo6.report (ReadError.Io c) ∧
    demo6.argMissingMsg ≠ demo6.report (ReadError.Parse k) := by
  refine ⟨rfl, rfl, ?_, ?_, ?_⟩
  · exact append_ne_of_take7 "Error reading file: " "Error parsing file: "
      c.msg (parseErrorDisplay k) (by decide) (by decide) (by decide)
  · have h1 : demo6.argMissingMsg = "Expected filename" ++ "" := by
      rw [String.append_empty]
      rfl
    rw [h1]
    exact append_ne_of_take7 "Expected filename" "Error reading file: "
      "" c.msg (by decide) (by decide) (by decide)
  · have h1 : demo6.argMissingMsg = "Expected filename" ++ "" := by
      rw [String.append_empty]
      rfl
    rw [h1]
    exact append_ne_of_take7 "Expected filename" "Error parsing file: "
      "" (parseErrorDisplay k) (by decide) (by decide) (by decide)

/-- Claim C9: the pipeline is deterministic in its input — two
consecutive runs over the same unmodified file model return equal
results, for demo6 as well as for demo3 and demo5. -/
theorem C9_deterministic (f : FileModel) :
    (demo6.runTwice f).1 = (demo6.runTwice f).2 ∧
    demo5.read_file f = demo5.read_file f ∧
    demo3.read_file f = demo3.read_file f :=
  ⟨rfl, rfl, rfl⟩

/-- Claim C10: demo1 parses its positional argument as an `i32` with no
whitespace trimming: it prints a value exactly when the entire argument
(an optional sign included, no surrounding whitespace) is a decimal
integer in the signed 32-bit range, and otherwise takes the
parse-failure exit path; arguments with surrounding whitespace or out of
range are rejected. -/
theorem C10_demo1_i32_argument (p arg : String) (rest : List String) :
    (∀ n : Int, demo1.main (p :: arg :: rest) = Demo1Result.printed n ↔
        specI32Decimal arg.data = some n) ∧
    ((∃ n, demo1.main (p :: arg :: rest) = Demo1Result.printed n ∧
        specI32Decimal arg.data = some n) ∨
      (∃ k, demo1.main (p :: arg :: rest) = Demo1Result.parseFailed k ∧
        specI32Decimal arg.data = none)) ∧
    demo1.main ["demo1", " 1"]
      = Demo1Result.parseFailed ParseIntErrorKind.InvalidDigit ∧
    demo1.main ["demo1", "1 "]
      = Demo1Result.parseFailed ParseIntErrorKind.InvalidDigit ∧
    demo1.main ["demo1", "2147483648"]
      = Demo1Result.parseFailed ParseIntErrorKind.PosOverflow ∧
    demo1.main ["demo1", "-2147483649"]
      = Demo1Result.parseFailed ParseIntErrorKind.NegOverflow := by
  have hmain : demo1.main (p :: arg :: rest)
      = (match parseI32 arg.data with
         | Except.ok n => Demo1Result.printed n
         | Except.error e => Demo1Result.parseFailed e) := rfl
  refine ⟨?_, ?_, by decide, by decide, by decide, by decide⟩
  · intro n
    rw [hmain]
    rcases h : parseI32 arg.data with e | m
    · constructor
      · intro habs; cases habs
      · intro hspec
        have := (parseI32_ok_iff_spec arg.data n).mpr hspec
        rw [h] at this
        cases this
    · have hspec := (parseI32_ok_iff_spec arg.data m).mp h
      rw [hspec]
      constructor
      · intro hpr
        injection hpr with hm
        rw [hm]
      · intro hsome
        injection hsome with hm
        rw [hm]
  · rcases h : parseI32 arg.data with e | m
    · refine Or.inr ⟨e, by rw [hmain, h], ?_⟩
      cases hs : specI32Decimal arg.data with
      | none => rfl
      | some m2 =>
        have := (parseI32_ok_iff_spec arg.data m2).mpr hs
        rw [h] at this
        cases this
    · exact Or.inl ⟨m, by rw [hmain, h],
        (parseI32_ok_iff_spec arg.data m).mp h⟩

end RustDemos
